import Mathlib

/-!
Verification of the `learn-vulkano` deferred-lighting render system.

This file gives a shallow embedding of the core of the repository:

* `LearnVulkano.Model` — the model/normal matrix cache of
  `src/render_system/obj_loader.rs` (`Model`, `ModelBuilder`,
  `model_matrix`, `normal_matrix`, `rotate`, `translate`, `zero_rotation`);
* `LearnVulkano.RenderSystem` — the frame state machine of
  `src/render_system/system.rs` (`RenderStage`, `start_frame`,
  `render_model`, `render_ambient`, `render_directional`,
  `render_light_object`, `finish_frame`, `recreate_swapchain`,
  `set_view`, `set_ambient`).

Conventions of the embedding:

* `f32` scalars are modelled as exact rationals `ℚ`; glam's `Mat4`
  (column-major 4x4 float matrix) is modelled as `Matrix (Fin 4) (Fin 4) ℚ`.
  glam's `Mat4::inverse` (cofactor/adjugate formula) is modelled as
  `mat4Inv A = A.det⁻¹ • A.adjugate`, which agrees with Mathlib's matrix
  inverse (`mat4Inv_eq_inv`).
* glam's `Mat4::from_axis_angle` is external library code whose exact
  trigonometric value is irrelevant to every claim; it is abstracted as an
  explicit function argument `fa : Vec3 → ℚ → Mat4` threaded to `rotate`.
* Interior mutability (`Cell` caches, `&mut self` methods) becomes explicit
  state passing: an accessor returns the value paired with the updated state.
* Rust panics (`unwrap` on `None`, indexing out of bounds, unexpected
  acquire errors) are modelled by `Option`, with `none` meaning a panic.
* Vulkan itself is an external collaborator: the result of
  `acquire_next_image`, the surface extent a rebuild observes and the
  image count the driver chooses are inputs to each operation, and the
  commands recorded into the command buffer builder are a `List Cmd`
  stored in the system state.
-/

open Matrix

namespace LearnVulkano

/-- The 4x4 float matrix of glam, modelled exactly over `ℚ`. -/
abbrev Mat4 : Type := Matrix (Fin 4) (Fin 4) ℚ

/-- A 3-component float vector (`glam::Vec3` / `[f32; 3]`). -/
structure Vec3 where
  x : ℚ
  y : ℚ
  z : ℚ
deriving DecidableEq, Repr

/-- A 4-component float vector (`glam::Vec4` / `[f32; 4]`). -/
structure Vec4 where
  x : ℚ
  y : ℚ
  z : ℚ
  w : ℚ
deriving DecidableEq, Repr

/-- glam `Mat4::from_translation v`: identity with `v` in the last column. -/
def fromTranslation (v : Vec3) : Mat4 :=
  !![1, 0, 0, v.x; 0, 1, 0, v.y; 0, 0, 1, v.z; 0, 0, 0, 1]

/-- glam `Mat4::from_scale [s; 3]`: uniform scale on the three axes. -/
def fromScale (s : ℚ) : Mat4 :=
  !![s, 0, 0, 0; 0, s, 0, 0; 0, 0, s, 0; 0, 0, 0, 1]

/-- glam `Mat4::inverse` (adjugate over determinant); total, with the
singular case mapped to the zero matrix as `ℚ` division by zero is zero. -/
def mat4Inv (A : Mat4) : Mat4 := A.det⁻¹ • A.adjugate

/-- A vertex of `obj_loader::NormalVertex`: position, normal, color. -/
structure NormalVertex where
  position : Vec3
  normal : Vec3
  color : Vec3
deriving DecidableEq, Repr

/-- A vertex of `obj_loader::ColoredVertex`: position, color. -/
structure ColoredVertex where
  position : Vec3
  color : Vec3
deriving DecidableEq, Repr

/-- A vertex of `obj_loader::DummyVertex`: a 2d position. -/
structure DummyVertex where
  position : ℚ × ℚ
deriving DecidableEq, Repr

/-- Rust `DummyVertex::list()`: the fixed full-screen quad (6 vertices). -/
def DummyVertex.list : List DummyVertex :=
  [⟨(-1, -1)⟩, ⟨(-1, 1)⟩, ⟨(1, 1)⟩, ⟨(-1, -1)⟩, ⟨(1, 1)⟩, ⟨(1, -1)⟩]

/-- Rust `obj_loader::Model`: mesh data, accumulated transform and the memoized
`(model matrix, normal matrix)` pair (`cache : Cell<Option<..>>`). -/
structure Model where
  data : List NormalVertex
  translation : Mat4
  rotation : Mat4
  uniform_scale : ℚ
  cache : Option (Mat4 × Mat4)

/-- Rust `ModelBuilder::build` with the mesh data already loaded from the obj
file (file parsing is external I/O): identity transforms, given scale
factor, empty cache. -/
def Model.build (data : List NormalVertex) (scale_factor : ℚ) : Model :=
  { data := data
    translation := 1
    rotation := 1
    uniform_scale := scale_factor
    cache := none }

/-- The matrix computation shared by the two accessors of `Model`
(`obj_loader.rs` lines 399-406 and 415-421):
`model = translation * rotation * from_scale(scale)` and
`normal = model.inverse().transpose()`. -/
def Model.computeMatrices (m : Model) : Mat4 × Mat4 :=
  let model := m.translation * m.rotation * fromScale m.uniform_scale
  (model, (mat4Inv model)ᵀ)

/-- Rust `Model::model_matrix`: return the cached model matrix if present,
otherwise recompute both matrices, store both, and return the model one.
The returned `Model` carries the updated cache cell. -/
def Model.model_matrix (m : Model) : Mat4 × Model :=
  match m.cache with
  | some c => (c.1, m)
  | none => ((m.computeMatrices).1, { m with cache := some m.computeMatrices })

/-- Rust `Model::normal_matrix`: return the cached normal matrix if present,
otherwise recompute both matrices, store both, and return the normal one. -/
def Model.normal_matrix (m : Model) : Mat4 × Model :=
  match m.cache with
  | some c => (c.2, m)
  | none => ((m.computeMatrices).2, { m with cache := some m.computeMatrices })

/-- Rust `Model::rotate`: post-multiply the rotation by the axis-angle matrix
`fa v radians` and invalidate the cache. -/
def Model.rotate (fa : Vec3 → ℚ → Mat4) (m : Model) (radians : ℚ) (v : Vec3) : Model :=
  { m with rotation := m.rotation * fa v radians, cache := none }

/-- Rust `Model::translate`: post-multiply the translation and invalidate
the cache. -/
def Model.translate (m : Model) (v : Vec3) : Model :=
  { m with translation := m.translation * fromTranslation v, cache := none }

/-- Rust `Model::zero_rotation`: reset the rotation to the identity and
invalidate the cache. -/
def Model.zero_rotation (m : Model) : Model :=
  { m with rotation := 1, cache := none }

/-- Rust `Model::color_data`: project the mesh to `ColoredVertex` values. -/
def Model.color_data (m : Model) : List ColoredVertex :=
  m.data.map fun v => ⟨v.position, v.color⟩

/-- One call of the public `Model` transform/accessor API. -/
inductive ModelOp where
  | rotate (radians : ℚ) (v : Vec3)
  | translate (v : Vec3)
  | zeroRotation
  | queryModel
  | queryNormal

/-- Apply one `ModelOp` (accessor results are discarded, their cache
effect is kept). -/
def Model.applyOp (fa : Vec3 → ℚ → Mat4) (m : Model) : ModelOp → Model
  | .rotate r v => m.rotate fa r v
  | .translate v => m.translate v
  | .zeroRotation => m.zero_rotation
  | .queryModel => (m.model_matrix).2
  | .queryNormal => (m.normal_matrix).2

/-- Apply a sequence of `ModelOp`s in call order. -/
def Model.applyOps (fa : Vec3 → ℚ → Mat4) (m : Model) : List ModelOp → Model
  | [] => m
  | op :: rest => Model.applyOps fa (m.applyOp fa op) rest

/-- Spec-side fold (from the spec's words, for refinement claims): the
translation accumulated so far, post-multiplied in call order by the
translation matrix of each successive `translate` call. -/
def specTranslationFrom (acc : Mat4) : List ModelOp → Mat4
  | [] => acc
  | .translate v :: rest => specTranslationFrom (acc * fromTranslation v) rest
  | _ :: rest => specTranslationFrom acc rest

/-- Spec-side fold (from the spec's words): the rotation accumulated so
far, post-multiplied in call order by the axis-angle matrix of each
successive `rotate` call and reset to the identity by `zero_rotation`. -/
def specRotationFrom (fa : Vec3 → ℚ → Mat4) (acc : Mat4) : List ModelOp → Mat4
  | [] => acc
  | .rotate r v :: rest => specRotationFrom fa (acc * fa v r) rest
  | .zeroRotation :: rest => specRotationFrom fa 1 rest
  | _ :: rest => specRotationFrom fa acc rest

/-- Spec-side fold (from the spec's words): whether the memoized pair is
present, i.e. whether some accessor ran with no mutation after it.
Initially absent; any mutator makes it absent; any accessor makes it
present. -/
def cachePresentFrom (acc : Bool) : List ModelOp → Bool
  | [] => acc
  | .rotate _ _ :: rest => cachePresentFrom false rest
  | .translate _ :: rest => cachePresentFrom false rest
  | .zeroRotation :: rest => cachePresentFrom false rest
  | .queryModel :: rest => cachePresentFrom true rest
  | .queryNormal :: rest => cachePresentFrom true rest

/-! ### The render system of `src/render_system/system.rs` -/

/-- A window/image extent in pixels (`PhysicalSize<u32>` / `[u32; 2]`). -/
structure Extent where
  width : ℕ
  height : ℕ
deriving DecidableEq, Repr

/-- The swapchain as the system observes it: its image extent and how
many presentable images the driver created. -/
structure Swapchain where
  extent : Extent
  numImages : ℕ
deriving DecidableEq, Repr

/-- Environment of one (re)creation of the swapchain: the surface extent
the window reports at that moment and the image count the driver picks. -/
structure SwapchainEnv where
  surfaceExtent : Extent
  imageCount : ℕ
deriving DecidableEq, Repr

/-- Rust `create_swapchain_and_images`: a chain sized to the surface extent,
plus one image per driver-chosen slot (all sized to that extent). -/
def create_swapchain_and_images (env : SwapchainEnv) : Swapchain × List Extent :=
  (⟨env.surfaceExtent, env.imageCount⟩, List.replicate env.imageCount env.surfaceExtent)

/-- An attachment image view (`ImageView<AttachmentImage>`), identified by
its extent. -/
structure Attachment where
  extent : Extent
deriving DecidableEq, Repr

/-- A framebuffer: the swapchain image view plus the three shared
attachments it was created with (`create_framebuffer`, attachment order
`[view, color, normal, depth]`). -/
structure Framebuffer where
  image : Extent
  color : Extent
  normal : Extent
  depth : Extent
deriving DecidableEq, Repr

/-- Rust `create_framebuffer`: depth, color and normal attachments sized to
`images[0]`, and one framebuffer per swapchain image.  `none` models the
Rust panic of indexing `images[0]` on an empty image list. -/
def create_framebuffer (images : List Extent) :
    Option (List Framebuffer × Attachment × Attachment) :=
  match images.head? with
  | none => none
  | some dims =>
    some (images.map fun img => ⟨img, dims, dims, dims⟩, ⟨dims⟩, ⟨dims⟩)

/-- The projection matrix, kept as the parameters of the external
`glam::Mat4::perspective_rh_gl` call that built it (the field of view is
the constant `FRAC_PI_2` at every call site and is omitted). -/
structure Projection where
  aspect_ratio : ℚ
  z_near : ℚ
  z_far : ℚ
deriving DecidableEq, Repr

/-- The view/projection pair `mvp::VP`. -/
structure VP where
  view : Mat4
  projection : Projection

/-- Rust `VP::from_surface`: identity view; projection with aspect ratio
`width / height` of the surface extent, near plane `0.01`, far `100.0`. -/
def VP.from_surface (e : Extent) : VP :=
  { view := 1
    projection := ⟨(e.width : ℚ) / (e.height : ℚ), 1 / 100, 100⟩ }

/-- Contents of the view/projection uniform buffer
(`shaders::deferred_vert::ty::VpData`). -/
structure VpData where
  view : Mat4
  projection : Projection

/-- Rust `create_uniform_buffer`: marshal the current `VP` into a fresh
uniform buffer. -/
def create_uniform_buffer (vp : VP) : VpData :=
  ⟨vp.view, vp.projection⟩

/-- Rust `light::AmbientLight` / `shaders::ambient_frag::ty::AmbientLightData`. -/
structure AmbientLightData where
  color : Vec3
  intensity : ℚ
deriving DecidableEq, Repr

/-- Rust `light::DirectionalLight`: a position and a color. -/
structure DirectionalLight where
  position : Vec3
  color : Vec3
deriving DecidableEq, Repr

/-- Rust `shaders::directional_frag::ty::DirectionalLightData`: a 4-component
position and a color. -/
structure DirectionalLightData where
  position : Vec4
  color : Vec3
deriving DecidableEq, Repr

/-- Rust `RenderSystem::generate_directional_buffer`: upload the light with
`position.xyzz()` (the 3-vector broadcast to `(x, y, z, z)`) and the
color unchanged. -/
def generate_directional_buffer (light : DirectionalLight) : DirectionalLightData :=
  { position := ⟨light.position.x, light.position.y, light.position.z, light.position.z⟩
    color := light.color }

/-- Rust `shaders::deferred_vert::ty::ModelData`: the per-draw model uniform. -/
structure ModelData where
  model : Mat4
  normals : Mat4

/-- The `RenderStage` enum of `system.rs`. -/
inductive RenderStage where
  | Stopped
  | Deferred
  | Ambient
  | Directional
  | LightObject
  | NeedsRedraw
deriving DecidableEq, Repr

/-- One clear value passed to `begin_render_pass`. -/
inductive ClearValue where
  | color (r g b a : ℚ)
  | depth (d : ℚ)
deriving DecidableEq, Repr

/-- Which graphics pipeline a recorded command binds. -/
inductive PipelineKind where
  | deferred
  | directional
  | ambient
  | lightObj
deriving DecidableEq, Repr

/-- Contents of a bound descriptor set, by the data written into it. -/
inductive DescSet where
  | vpSet (d : VpData)
  | modelSet (d : ModelData)
  | ambientSet (colorInput : Attachment) (d : AmbientLightData)
  | directionalSet (colorInput normalInput : Attachment) (d : DirectionalLightData)

/-- Contents of a bound vertex buffer. -/
inductive VertexBufferContent where
  | modelVerts (vs : List NormalVertex)
  | coloredVerts (vs : List ColoredVertex)
  | dummy (vs : List DummyVertex)

/-- One command recorded into the in-progress primary command buffer. -/
inductive Cmd where
  | beginRenderPass (clearValues : List ClearValue) (fb : Framebuffer)
  | nextSubpass
  | bindPipeline (p : PipelineKind)
  | bindDescriptorSets (p : PipelineKind) (firstSet : ℕ) (sets : List DescSet)
  | bindVertexBuffers (vb : VertexBufferContent)
  | setViewport (e : Extent)
  | draw (vertexCount : ℕ)
  | endRenderPass

/-- Result of `vulkano::swapchain::acquire_next_image`; `otherErr` is any
error other than `OutOfDate`, on which the code panics. -/
inductive AcquireResult where
  | ok (imageIndex : ℕ) (suboptimal : Bool)
  | outOfDate
  | otherErr
deriving DecidableEq, Repr

/-- Result of `then_signal_fence_and_flush` in `finish_frame`. -/
inductive FlushResult where
  | ok
  | outOfDate
  | otherErr
deriving DecidableEq, Repr

/-- The boxed `GpuFuture` handle threaded across frames: either a fresh
`sync::now` or the chained completion of a submitted frame. -/
inductive FrameFuture where
  | now
  | chained (prev : FrameFuture)

/-- Externally visible effects of `finish_frame`. -/
inductive FrameEvent where
  | submitted (cmds : List Cmd) (imageIndex : ℕ)
  | presented (imageIndex : ℕ)

/-- The mutable state of `RenderSystem` (the long-lived pipeline and
allocator handles carry no observable state and are omitted). -/
structure SysState where
  swapchain : Swapchain
  framebuffers : List Framebuffer
  color_buffer : Attachment
  normal_buffer : Attachment
  dummy_verts : List DummyVertex
  ambient_buffer : AmbientLightData
  vp : VP
  vp_buffer : VpData
  vp_set : VpData
  render_stage : RenderStage
  commands : Option (List Cmd)
  image_index : ℕ
  acquire_future : Option Unit

namespace RenderSystem

/-- Rust `RenderSystem::new` (the state-relevant tail of it): build the
swapchain and framebuffers from the window surface, the default ambient
light `([1,1,1], 0.1)`, the view/projection from the surface, and start
`Stopped` with no recording and no acquired image. -/
def new (env : SwapchainEnv) : Option SysState :=
  match create_framebuffer (create_swapchain_and_images env).2 with
  | none => none
  | some fbs =>
    some
      { swapchain := (create_swapchain_and_images env).1
        framebuffers := fbs.1
        color_buffer := fbs.2.1
        normal_buffer := fbs.2.2
        dummy_verts := DummyVertex.list
        ambient_buffer := ⟨⟨1, 1, 1⟩, 1 / 10⟩
        vp := VP.from_surface env.surfaceExtent
        vp_buffer := create_uniform_buffer (VP.from_surface env.surfaceExtent)
        vp_set := create_uniform_buffer (VP.from_surface env.surfaceExtent)
        render_stage := .Stopped
        commands := none
        image_index := 0
        acquire_future := none }

/-- Rust `RenderSystem::set_view`: replace the view matrix and immediately
re-create the uniform buffer and its descriptor set. -/
def set_view (s : SysState) (view : Mat4) : SysState :=
  let vp := { s.vp with view := view }
  let vp_buffer := create_uniform_buffer vp
  { s with vp := vp, vp_buffer := vp_buffer, vp_set := vp_buffer }

/-- Rust `RenderSystem::set_ambient`: replace the ambient uniform buffer. -/
def set_ambient (s : SysState) (color : Vec3) (intensity : ℚ) : SysState :=
  { s with ambient_buffer := ⟨color, intensity⟩ }

/-- Rust `RenderSystem::recreate_swapchain`: recompute the projection from the
current surface extent, rebuild swapchain + framebuffers + color/normal
attachments (+ depth, inside `create_framebuffer`) as one unit, and
re-create the view/projection uniform buffer and descriptor set. -/
def recreate_swapchain (s : SysState) (env : SwapchainEnv) : Option SysState :=
  match create_framebuffer (create_swapchain_and_images env).2 with
  | none => none
  | some fbs =>
    some
      { s with
        vp := { s.vp with projection := (VP.from_surface env.surfaceExtent).projection }
        swapchain := (create_swapchain_and_images env).1
        framebuffers := fbs.1
        color_buffer := fbs.2.1
        normal_buffer := fbs.2.2
        vp_buffer := create_uniform_buffer
          { s.vp with projection := (VP.from_surface env.surfaceExtent).projection }
        vp_set := create_uniform_buffer
          { s.vp with projection := (VP.from_surface env.surfaceExtent).projection } }

/-- The four clear values of `start_frame`: `[0.0, 0.0, 0.0, 1.0]` for
the final-color, color and normal attachments and `1.0` for depth. -/
def startFrameClearValues : List ClearValue :=
  [.color 0 0 0 1, .color 0 0 0 1, .color 0 0 0 1, .depth 1]

/-- Rust `RenderSystem::start_frame`: from `Stopped`, move to `Deferred` and
acquire the next image; staleness (out-of-date error or suboptimal flag)
triggers a swapchain rebuild and returns early; otherwise begin a fresh
command recording with the render pass opened on the acquired image's
framebuffer.  From `NeedsRedraw`, rebuild and reset; from anything else,
abort to `Stopped`. -/
def start_frame (s : SysState) (acq : AcquireResult) (env : SwapchainEnv) :
    Option SysState :=
  match s.render_stage with
  | .NeedsRedraw =>
    (recreate_swapchain s env).map fun s1 =>
      { s1 with commands := none, render_stage := .Stopped }
  | .Stopped =>
    match acq with
    | .outOfDate => recreate_swapchain { s with render_stage := .Deferred } env
    | .otherErr => none
    | .ok imageIndex suboptimal =>
      match suboptimal with
      | true => recreate_swapchain { s with render_stage := .Deferred } env
      | false =>
        match s.framebuffers.get? imageIndex with
        | none => none
        | some fb =>
          some
            { s with
              render_stage := .Deferred
              commands := some [.beginRenderPass startFrameClearValues fb]
              image_index := imageIndex
              acquire_future := some () }
  | _ => some { s with render_stage := .Stopped, commands := none }

/-- The commands `render_model` appends on its effective path: viewport,
geometry pipeline, the shared view/projection set (set 0) and the
per-model uniform (model then normal matrix through the cached
accessors, set 1), the model's vertex buffer, and a non-indexed draw of
all its vertices. -/
def modelDrawCmds (s : SysState) (model : Model) (surfExt : Extent) : List Cmd :=
  [.setViewport surfExt,
   .bindPipeline .deferred,
   .bindDescriptorSets .deferred 0
     [.vpSet s.vp_set,
      .modelSet ⟨(model.model_matrix).1, (((model.model_matrix).2).normal_matrix).1⟩],
   .bindVertexBuffers (.modelVerts ((((model.model_matrix).2).normal_matrix).2).data),
   .draw ((((model.model_matrix).2).normal_matrix).2).data.length]

/-- Rust `RenderSystem::render_model`: in `Deferred`, upload the model uniform
(model matrix then normal matrix, through the cached accessors), upload
the vertex data, and record viewport/pipeline/descriptor/vertex-buffer
binds and a draw; otherwise abort (rebuilding first from `NeedsRedraw`). -/
def render_model (s : SysState) (model : Model) (surfExt : Extent)
    (env : SwapchainEnv) : Option (SysState × Model) :=
  match s.render_stage with
  | .Deferred =>
    match s.commands with
    | none => none
    | some l =>
      some
        ({ s with commands := some (l ++ modelDrawCmds s model surfExt) },
          (((model.model_matrix).2).normal_matrix).2)
  | .NeedsRedraw =>
    (recreate_swapchain s env).map fun s1 =>
      ({ s1 with render_stage := .Stopped, commands := none }, model)
  | _ => some ({ s with render_stage := .Stopped, commands := none }, model)

/-- The commands `render_ambient` appends on its effective path:
subpass advance, ambient pipeline + descriptor set, viewport, the
full-screen quad and its draw. -/
def ambientCmds (s : SysState) (surfExt : Extent) : List Cmd :=
  [.nextSubpass,
   .bindPipeline .ambient,
   .bindDescriptorSets .ambient 0 [.ambientSet s.color_buffer s.ambient_buffer],
   .setViewport surfExt,
   .bindVertexBuffers (.dummy s.dummy_verts),
   .draw s.dummy_verts.length]

/-- Rust `RenderSystem::render_ambient`: from `Deferred`, advance to the
lighting subpass and draw the full-screen ambient quad; when already
`Ambient`, return without touching anything; otherwise abort (rebuilding
first from `NeedsRedraw`). -/
def render_ambient (s : SysState) (surfExt : Extent) (env : SwapchainEnv) :
    Option SysState :=
  match s.render_stage with
  | .Deferred =>
    match s.commands with
    | none => none
    | some l =>
      some { s with render_stage := .Ambient, commands := some (l ++ ambientCmds s surfExt) }
  | .Ambient => some s
  | .NeedsRedraw =>
    (recreate_swapchain s env).map fun s1 =>
      { s1 with commands := none, render_stage := .Stopped }
  | _ => some { s with commands := none, render_stage := .Stopped }

/-- The commands `render_directional` appends on its effective path. -/
def directionalCmds (s : SysState) (light : DirectionalLight) (surfExt : Extent) :
    List Cmd :=
  [.setViewport surfExt,
   .bindPipeline .directional,
   .bindVertexBuffers (.dummy s.dummy_verts),
   .bindDescriptorSets .directional 0
     [.directionalSet s.color_buffer s.normal_buffer (generate_directional_buffer light)],
   .draw s.dummy_verts.length]

/-- Rust `RenderSystem::render_directional`: from `Ambient` move to
`Directional` (staying there on repeat calls), upload the per-call light
uniform and draw the full-screen quad; otherwise abort (rebuilding first
from `NeedsRedraw`). -/
def render_directional (s : SysState) (light : DirectionalLight)
    (surfExt : Extent) (env : SwapchainEnv) : Option SysState :=
  match s.render_stage with
  | .Ambient =>
    match s.commands with
    | none => none
    | some l =>
      some { s with render_stage := .Directional,
                    commands := some (l ++ directionalCmds s light surfExt) }
  | .Directional =>
    match s.commands with
    | none => none
    | some l => some { s with commands := some (l ++ directionalCmds s light surfExt) }
  | .NeedsRedraw =>
    (recreate_swapchain s env).map fun s1 =>
      { s1 with commands := none, render_stage := .Stopped }
  | _ => some { s with commands := none, render_stage := .Stopped }

/-- The ad-hoc marker model `render_light_object` builds: the sphere mesh
(as loaded externally with the light's color), scaled by `0.2` and
translated to the light's position. -/
def lightObjModel (light : DirectionalLight) (sphereData : List NormalVertex) : Model :=
  (Model.build sphereData (2 / 10)).translate light.position

/-- The commands `render_light_object` appends on its effective path
(model then normal matrix through the cached accessors; no viewport). -/
def lightObjCmds (s : SysState) (light : DirectionalLight)
    (sphereData : List NormalVertex) : List Cmd :=
  [.bindPipeline .lightObj,
   .bindDescriptorSets .lightObj 0
     [.vpSet s.vp_set,
      .modelSet ⟨((lightObjModel light sphereData).model_matrix).1,
        ((((lightObjModel light sphereData).model_matrix).2).normal_matrix).1⟩],
   .bindVertexBuffers (.coloredVerts
     (((((lightObjModel light sphereData).model_matrix).2).normal_matrix).2).color_data),
   .draw (((((lightObjModel light sphereData).model_matrix).2).normal_matrix).2).color_data.length]

/-- Rust `RenderSystem::render_light_object`: from `Directional` move to
`LightObject` (staying there on repeat calls); build the small sphere
marker model (mesh loaded externally, tinted with the light's color),
scaled by `0.2` and translated to the light position, and draw it with
the regular view/projection set; otherwise abort. -/
def render_light_object (s : SysState) (light : DirectionalLight)
    (sphereData : List NormalVertex) (env : SwapchainEnv) : Option SysState :=
  match s.render_stage with
  | .Directional =>
    match s.commands with
    | none => none
    | some l =>
      some
        { s with
          render_stage := .LightObject
          commands := some (l ++ lightObjCmds s light sphereData) }
  | .LightObject =>
    match s.commands with
    | none => none
    | some l =>
      some { s with commands := some (l ++ lightObjCmds s light sphereData) }
  | .NeedsRedraw =>
    (recreate_swapchain s env).map fun s1 =>
      { s1 with render_stage := .Stopped, commands := none }
  | _ => some { s with render_stage := .Stopped, commands := none }

/-- Rust `RenderSystem::finish_frame`: from `Directional` or `LightObject`,
end the render pass, build and submit the command buffer gated on the
previous frame's future joined with the acquire future, then present;
the flush result decides the new previous-frame future (a stale flush
additionally rebuilds the swapchain).  From any other stage, abort
without submitting.  Every returning path ends `Stopped` with no
recording. -/
def finish_frame (s : SysState) (flush : FlushResult) (env : SwapchainEnv)
    (previous_frame_end : FrameFuture) :
    Option (SysState × FrameFuture × List FrameEvent) :=
  match s.render_stage with
  | .Directional | .LightObject =>
    match s.commands with
    | none => none
    | some l =>
      match s.acquire_future with
      | none => none
      | some _ =>
        match flush with
        | .ok =>
          some ({ s with commands := none, render_stage := .Stopped,
                         acquire_future := none },
            .chained previous_frame_end,
            [.submitted (l ++ [.endRenderPass]) s.image_index, .presented s.image_index])
        | .outOfDate =>
          match recreate_swapchain s env with
          | none => none
          | some s1 =>
            some ({ s1 with commands := none, render_stage := .Stopped,
                            acquire_future := none },
              .now,
              [.submitted (l ++ [.endRenderPass]) s.image_index, .presented s.image_index])
        | .otherErr =>
          some ({ s with commands := none, render_stage := .Stopped,
                         acquire_future := none },
            .now,
            [.submitted (l ++ [.endRenderPass]) s.image_index, .presented s.image_index])
  | .NeedsRedraw =>
    (recreate_swapchain s env).map fun s1 =>
      ({ s1 with commands := none, render_stage := .Stopped }, previous_frame_end, [])
  | _ =>
    some ({ s with commands := none, render_stage := .Stopped }, previous_frame_end, [])

end RenderSystem

/-- One call of the public `RenderSystem` API, bundled with the
environment it observes (acquire result, surface extent, driver-chosen
image count, flush result, externally loaded sphere mesh). -/
inductive SysCall where
  | startFrame (acq : AcquireResult) (env : SwapchainEnv)
  | renderModel (model : Model) (surfExt : Extent) (env : SwapchainEnv)
  | renderAmbient (surfExt : Extent) (env : SwapchainEnv)
  | renderDirectional (light : DirectionalLight) (surfExt : Extent) (env : SwapchainEnv)
  | renderLightObject (light : DirectionalLight) (sphereData : List NormalVertex)
      (env : SwapchainEnv)
  | finishFrame (flush : FlushResult) (env : SwapchainEnv) (prev : FrameFuture)
  | setView (view : Mat4)
  | setAmbient (color : Vec3) (intensity : ℚ)
  | recreateSwapchain (env : SwapchainEnv)

/-- Apply one public call to the system state (`none` = the call
panicked). -/
def SysState.applyCall (s : SysState) : SysCall → Option SysState
  | .startFrame acq env => RenderSystem.start_frame s acq env
  | .renderModel model surfExt env =>
    (RenderSystem.render_model s model surfExt env).map Prod.fst
  | .renderAmbient surfExt env => RenderSystem.render_ambient s surfExt env
  | .renderDirectional light surfExt env =>
    RenderSystem.render_directional s light surfExt env
  | .renderLightObject light sphereData env =>
    RenderSystem.render_light_object s light sphereData env
  | .finishFrame flush env prev =>
    (RenderSystem.finish_frame s flush env prev).map fun r => r.1
  | .setView view => some (RenderSystem.set_view s view)
  | .setAmbient color intensity => some (RenderSystem.set_ambient s color intensity)
  | .recreateSwapchain env => RenderSystem.recreate_swapchain s env

/-- Run a sequence of public calls from a state. -/
def SysState.run (s : SysState) : List SysCall → Option SysState
  | [] => some s
  | c :: rest => match s.applyCall c with
    | none => none
    | some s1 => SysState.run s1 rest

/-! ### Decidability of the observable data -/

instance : DecidableEq Mat4 :=
  inferInstanceAs (DecidableEq (Fin 4 → Fin 4 → ℚ))

deriving instance DecidableEq for VP
deriving instance DecidableEq for VpData
deriving instance DecidableEq for ModelData
deriving instance DecidableEq for DescSet
deriving instance DecidableEq for VertexBufferContent
deriving instance DecidableEq for Cmd

/-- Whether an acquire result reports staleness: the out-of-date error or
a success carrying the suboptimal flag. -/
def staleAcquire : AcquireResult → Bool
  | .outOfDate => true
  | .ok _ suboptimal => suboptimal
  | .otherErr => false

/-- Whether a recorded command is the subpass advance. -/
def Cmd.isNextSubpass : Cmd → Bool
  | .nextSubpass => true
  | _ => false

/-- How many subpass advances a command list records. -/
def countNextSubpass (l : List Cmd) : ℕ :=
  List.countP Cmd.isNextSubpass l

/-- How many subpass advances the in-progress recording of a frame must
hold at each stage: one once the lighting subpass has been entered. -/
def subpassAdvances : RenderStage → ℕ
  | .Ambient => 1
  | .Directional => 1
  | .LightObject => 1
  | _ => 0

/-- The state-machine invariant every reachable `RenderSystem` state
satisfies: `NeedsRedraw` never holds, a `Stopped` system has no recording
in flight, and the recording holds exactly as many subpass advances as
its stage mandates. -/
def StageInv (s : SysState) : Prop :=
  s.render_stage ≠ .NeedsRedraw
  ∧ (s.render_stage = .Stopped → s.commands = none)
  ∧ ∀ l, s.commands = some l → countNextSubpass l = subpassAdvances s.render_stage

/-- A `Model` whose memoized pair, when present, is the pair the current
transform computes. -/
def CacheOK (m : Model) : Prop :=
  ∀ c, m.cache = some c → c = m.computeMatrices

/-! ### Concrete inputs used by the evaluation witnesses -/

/-- A concrete window extent. -/
def extent0 : Extent := ⟨800, 600⟩

/-- A second concrete window extent (after a resize). -/
def extent1 : Extent := ⟨1024, 768⟩

/-- A concrete swapchain environment. -/
def env0 : SwapchainEnv := ⟨extent0, 3⟩

/-- A second concrete swapchain environment. -/
def env1 : SwapchainEnv := ⟨extent1, 2⟩

/-- A concrete axis-angle stand-in (the rotation matrix value is
irrelevant to every cache claim). -/
def fa0 : Vec3 → ℚ → Mat4 := fun _ _ => 1

/-- A concrete directional light. -/
def light0 : DirectionalLight := ⟨⟨4, -4, 0⟩, ⟨1, 0, 0⟩⟩

/-- A concrete model state: a fresh model queried once, so its cache is
filled. -/
def mWit : Model := Model.applyOps fa0 (Model.build [] 1) [ModelOp.queryModel]

/-- A concrete framebuffer of extent `extent0`. -/
def fb0 : Framebuffer := ⟨extent0, extent0, extent0, extent0⟩

/-- The concrete state `RenderSystem::new` builds in environment `env0`. -/
def newSys : SysState :=
  { swapchain := ⟨extent0, 3⟩
    framebuffers := [fb0, fb0, fb0]
    color_buffer := ⟨extent0⟩
    normal_buffer := ⟨extent0⟩
    dummy_verts := DummyVertex.list
    ambient_buffer := ⟨⟨1, 1, 1⟩, 1 / 10⟩
    vp := VP.from_surface extent0
    vp_buffer := create_uniform_buffer (VP.from_surface extent0)
    vp_set := create_uniform_buffer (VP.from_surface extent0)
    render_stage := .Stopped
    commands := none
    image_index := 0
    acquire_future := none }

/-- State `newSys` mid-frame, right after the geometry pass of image 0. -/
def midFrameSys : SysState :=
  { newSys with
    render_stage := .Deferred
    commands := some [.beginRenderPass RenderSystem.startFrameClearValues fb0]
    image_index := 0
    acquire_future := some () }

/-- State `midFrameSys` after the ambient pass. -/
def ambientSys : SysState :=
  { midFrameSys with
    render_stage := .Ambient
    commands := some ([.beginRenderPass RenderSystem.startFrameClearValues fb0]
      ++ RenderSystem.ambientCmds midFrameSys extent0) }

/-- State `ambientSys` after one directional pass. -/
def directionalSys : SysState :=
  { ambientSys with
    render_stage := .Directional
    commands := some ((ambientSys.commands.getD [])
      ++ RenderSystem.directionalCmds ambientSys light0 extent0) }

/-- State `directionalSys` after a successful `finish_frame`. -/
def finishedSys : SysState :=
  { directionalSys with
    commands := none
    render_stage := .Stopped
    acquire_future := none }

/-- The submit-then-present events of a `finish_frame` from
`directionalSys`. -/
def submittedEvs : List FrameEvent :=
  [.submitted ((directionalSys.commands.getD []) ++ [.endRenderPass])
    directionalSys.image_index,
   .presented directionalSys.image_index]

/-- The state `recreate_swapchain` produces from `newSys` in `env1`. -/
def rebuiltSys : SysState :=
  { newSys with
    vp := { newSys.vp with projection := (VP.from_surface extent1).projection }
    swapchain := ⟨extent1, 2⟩
    framebuffers := [⟨extent1, extent1, extent1, extent1⟩, ⟨extent1, extent1, extent1, extent1⟩]
    color_buffer := ⟨extent1⟩
    normal_buffer := ⟨extent1⟩
    vp_buffer := create_uniform_buffer
      { newSys.vp with projection := (VP.from_surface extent1).projection }
    vp_set := create_uniform_buffer
      { newSys.vp with projection := (VP.from_surface extent1).projection } }

/-! ### Lemmas: the model matrix cache -/

lemma Model.computeMatrices_withCache (m : Model) (x : Option (Mat4 × Mat4)) :
    Model.computeMatrices { m with cache := x } = m.computeMatrices := rfl

lemma Model.eta_cache (m : Model) (c : Mat4 × Mat4) (h : m.cache = some c) :
    { m with cache := some c } = m := by
  cases m; cases h; rfl

/-- Both branches of `model_matrix` return the freshly computed (or
validly cached) model matrix and leave the cache filled. -/
lemma Model.model_matrix_eq (m : Model) (h : CacheOK m) :
    m.model_matrix = ((m.computeMatrices).1, { m with cache := some m.computeMatrices }) := by
  cases hc : m.cache with
  | none => simp [Model.model_matrix, hc]
  | some c =>
    have hcm := h c hc
    subst hcm
    simp [Model.model_matrix, hc, Model.eta_cache m _ hc]

/-- Both branches of `normal_matrix` return the freshly computed (or
validly cached) normal matrix and leave the cache filled. -/
lemma Model.normal_matrix_eq (m : Model) (h : CacheOK m) :
    m.normal_matrix = ((m.computeMatrices).2, { m with cache := some m.computeMatrices }) := by
  cases hc : m.cache with
  | none => simp [Model.normal_matrix, hc]
  | some c =>
    have hcm := h c hc
    subst hcm
    simp [Model.normal_matrix, hc, Model.eta_cache m _ hc]

lemma Model.applyOp_cacheOK (fa : Vec3 → ℚ → Mat4) (m : Model) (op : ModelOp)
    (h : CacheOK m) : CacheOK (m.applyOp fa op) := by
  cases op with
  | rotate r v => intro c hc; simp [Model.applyOp, Model.rotate] at hc
  | translate v => intro c hc; simp [Model.applyOp, Model.translate] at hc
  | zeroRotation => intro c hc; simp [Model.applyOp, Model.zero_rotation] at hc
  | queryModel =>
    intro c hc
    rw [Model.applyOp, Model.model_matrix_eq m h] at hc ⊢
    have hc2 : some m.computeMatrices = some c := hc
    cases hc2
    rfl
  | queryNormal =>
    intro c hc
    rw [Model.applyOp, Model.normal_matrix_eq m h] at hc ⊢
    have hc2 : some m.computeMatrices = some c := hc
    cases hc2
    rfl

/-- Everything a sequence of `Model` calls preserves or folds: the mesh
data and scale never change, translation and rotation are the spec-side
folds, cache validity is preserved, and cache presence follows the
mutator/accessor history. -/
lemma Model.applyOps_inv (fa : Vec3 → ℚ → Mat4) (ops : List ModelOp) :
    ∀ m : Model, CacheOK m →
      (Model.applyOps fa m ops).data = m.data
      ∧ (Model.applyOps fa m ops).uniform_scale = m.uniform_scale
      ∧ (Model.applyOps fa m ops).translation = specTranslationFrom m.translation ops
      ∧ (Model.applyOps fa m ops).rotation = specRotationFrom fa m.rotation ops
      ∧ CacheOK (Model.applyOps fa m ops)
      ∧ (Model.applyOps fa m ops).cache.isSome = cachePresentFrom m.cache.isSome ops := by
  induction ops with
  | nil =>
    intro m h
    exact ⟨rfl, rfl, rfl, rfl, h, rfl⟩
  | cons op rest ih =>
    intro m h
    have hstep := ih (m.applyOp fa op) (Model.applyOp_cacheOK fa m op h)
    obtain ⟨hd, hu, ht, hr, hok, hc⟩ := hstep
    rw [Model.applyOps]
    cases op with
    | rotate r v =>
      refine ⟨hd, hu, ?_, ?_, hok, ?_⟩
      · rw [ht]; rfl
      · rw [hr]; rfl
      · rw [hc]; rfl
    | translate v =>
      refine ⟨hd, hu, ?_, ?_, hok, ?_⟩
      · rw [ht]; rfl
      · rw [hr]; rfl
      · rw [hc]; rfl
    | zeroRotation =>
      refine ⟨hd, hu, ?_, ?_, hok, ?_⟩
      · rw [ht]; rfl
      · rw [hr]; rfl
      · rw [hc]; rfl
    | queryModel =>
      have hq : (m.applyOp fa .queryModel) = { m with cache := some m.computeMatrices } := by
        rw [Model.applyOp, Model.model_matrix_eq m h]
      rw [hq] at hd hu ht hr hok hc ⊢
      exact ⟨hd, hu, ht, hr, hok, hc⟩
    | queryNormal =>
      have hq : (m.applyOp fa .queryNormal) = { m with cache := some m.computeMatrices } := by
        rw [Model.applyOp, Model.normal_matrix_eq m h]
      rw [hq] at hd hu ht hr hok hc ⊢
      exact ⟨hd, hu, ht, hr, hok, hc⟩

/-- glam's inverse (adjugate over determinant) is the Mathlib matrix
inverse. -/
lemma mat4Inv_eq_inv (A : Mat4) : mat4Inv A = A⁻¹ := by
  rw [Matrix.inv_def, mat4Inv, Ring.inverse_eq_inv]

/-- Transposition commutes with the matrix inverse. -/
lemma mat4Inv_transpose (A : Mat4) : (mat4Inv A)ᵀ = mat4Inv Aᵀ := by
  rw [mat4Inv, mat4Inv, Matrix.transpose_smul, Matrix.det_transpose,
    Matrix.adjugate_transpose]

/-- A freshly built model has a valid (empty) cache. -/
lemma Model.build_cacheOK (data : List NormalVertex) (q : ℚ) :
    CacheOK (Model.build data q) := by
  intro c hc
  simp [Model.build] at hc

/-! ### Claim theorems: the model matrix cache (C4, C5, C7) -/

/-- C4: for every `Model` reachable by a sequence of public calls, the
memoized pair is present iff no `rotate`/`translate`/`zero_rotation` call
happened since it was last computed (each mutator empties the cache);
either accessor with an empty cache recomputes both matrices and stores
both together before returning; with a filled cache either accessor
returns the stored matrix and leaves the model untouched; and two
consecutive `model_matrix` calls with no intervening mutation return
identical results. -/
theorem model_cache_invariant (fa : Vec3 → ℚ → Mat4) (data : List NormalVertex)
    (q : ℚ) (ops : List ModelOp) (m : Model)
    (hm : m = Model.applyOps fa (Model.build data q) ops) :
    (∀ r v, (m.rotate fa r v).cache = none)
    ∧ (∀ v, (m.translate v).cache = none)
    ∧ m.zero_rotation.cache = none
    ∧ (m.model_matrix).2.cache = some m.computeMatrices
    ∧ (m.normal_matrix).2.cache = some m.computeMatrices
    ∧ (m.model_matrix).1 = (m.computeMatrices).1
    ∧ (m.normal_matrix).1 = (m.computeMatrices).2
    ∧ (∀ c, m.cache = some c → m.model_matrix = (c.1, m) ∧ m.normal_matrix = (c.2, m))
    ∧ m.cache.isSome = cachePresentFrom false ops
    ∧ (m.model_matrix).1 = (((m.model_matrix).2).model_matrix).1 := by
  subst hm
  have hinv := Model.applyOps_inv fa ops (Model.build data q) (Model.build_cacheOK data q)
  obtain ⟨-, -, -, -, hok, hc⟩ := hinv
  refine ⟨fun r v => rfl, fun v => rfl, rfl, ?_, ?_, ?_, ?_, ?_, hc, ?_⟩
  · rw [Model.model_matrix_eq _ hok]
  · rw [Model.normal_matrix_eq _ hok]
  · rw [Model.model_matrix_eq _ hok]
  · rw [Model.normal_matrix_eq _ hok]
  · intro c hcc
    have hcm := hok c hcc
    subst hcm
    rw [Model.model_matrix_eq _ hok, Model.normal_matrix_eq _ hok,
      Model.eta_cache _ _ hcc]
    exact ⟨rfl, rfl⟩
  · rw [Model.model_matrix_eq _ hok]
    rfl

/-- C4 evaluation witness: a fresh model queried once has a filled cache,
its mutators empty it, and a repeated query returns the stored matrix
without touching the model. -/
theorem model_cache_invariant_witness :
    (mWit.translate ⟨1, 2, 3⟩).cache = none
    ∧ (mWit.model_matrix).2.cache = some mWit.computeMatrices
    ∧ mWit.cache.isSome = cachePresentFrom false [ModelOp.queryModel]
    ∧ mWit.model_matrix = ((mWit.computeMatrices).1, mWit) := by
  have h := model_cache_invariant fa0 [] 1 [ModelOp.queryModel] mWit rfl
  refine ⟨h.2.1 ⟨1, 2, 3⟩, h.2.2.2.1, h.2.2.2.2.2.2.2.2.1, ?_⟩
  have hsome : mWit.cache = some ((Model.build ([] : List NormalVertex) 1).computeMatrices) := rfl
  exact (h.2.2.2.2.2.2.2.1 _ hsome).1

/-- C5: for every reachable transform state of a `Model`, the normal
matrix accessor returns the inverse of the transpose of what the model
matrix accessor returns at that same state. -/
theorem normal_matrix_is_inverse_transpose (fa : Vec3 → ℚ → Mat4)
    (data : List NormalVertex) (q : ℚ) (ops : List ModelOp) :
    ((Model.applyOps fa (Model.build data q) ops).normal_matrix).1
      = ((((Model.applyOps fa (Model.build data q) ops).model_matrix).1)ᵀ)⁻¹ := by
  have hinv := Model.applyOps_inv fa ops (Model.build data q) (Model.build_cacheOK data q)
  obtain ⟨-, -, -, -, hok, -⟩ := hinv
  rw [Model.normal_matrix_eq _ hok, Model.model_matrix_eq _ hok]
  show (mat4Inv _)ᵀ = _
  rw [mat4Inv_transpose, mat4Inv_eq_inv]
  rfl

/-- C7: for every reachable transform state of a `Model`, the model
matrix is `translation * rotation * scale(uniform_scale)`, where the
translation is the identity post-multiplied in call order by the
translation matrix of each `translate` call, and the rotation is the
identity post-multiplied in call order by the axis-angle matrix of each
`rotate` call and reset to the identity by `zero_rotation`. -/
theorem model_matrix_decomposition (fa : Vec3 → ℚ → Mat4)
    (data : List NormalVertex) (q : ℚ) (ops : List ModelOp) :
    ((Model.applyOps fa (Model.build data q) ops).model_matrix).1
      = specTranslationFrom 1 ops * specRotationFrom fa 1 ops * fromScale q := by
  have hinv := Model.applyOps_inv fa ops (Model.build data q) (Model.build_cacheOK data q)
  obtain ⟨-, hu, ht, hr, hok, -⟩ := hinv
  rw [Model.model_matrix_eq _ hok]
  show (Model.applyOps fa (Model.build data q) ops).translation
      * (Model.applyOps fa (Model.build data q) ops).rotation
      * fromScale (Model.applyOps fa (Model.build data q) ops).uniform_scale
    = _
  rw [ht, hr, hu]
  rfl

/-! ### Lemmas: the render-system state machine -/

/-- Function `recreate_swapchain` rebuilds presentation state only: stage,
recording, acquire bookkeeping, image index, quad and ambient data are
untouched. -/
lemma recreate_swapchain_fields (s : SysState) (env : SwapchainEnv) (s1 : SysState)
    (h : RenderSystem.recreate_swapchain s env = some s1) :
    s1.render_stage = s.render_stage ∧ s1.commands = s.commands
    ∧ s1.acquire_future = s.acquire_future ∧ s1.image_index = s.image_index
    ∧ s1.dummy_verts = s.dummy_verts ∧ s1.ambient_buffer = s.ambient_buffer := by
  rw [RenderSystem.recreate_swapchain.eq_def] at h
  cases hfb : create_framebuffer (create_swapchain_and_images env).2 with
  | none => rw [hfb] at h; exact Option.noConfusion h
  | some fbs =>
    rw [hfb] at h
    cases h
    exact ⟨rfl, rfl, rfl, rfl, rfl, rfl⟩

lemma countNextSubpass_append (l₁ l₂ : List Cmd) :
    countNextSubpass (l₁ ++ l₂) = countNextSubpass l₁ + countNextSubpass l₂ :=
  List.countP_append _ _ _

lemma countNextSubpass_ambientCmds (s : SysState) (surfExt : Extent) :
    countNextSubpass (RenderSystem.ambientCmds s surfExt) = 1 := by
  simp [RenderSystem.ambientCmds, countNextSubpass, Cmd.isNextSubpass]

lemma countNextSubpass_directionalCmds (s : SysState) (light : DirectionalLight)
    (surfExt : Extent) :
    countNextSubpass (RenderSystem.directionalCmds s light surfExt) = 0 := by
  simp [RenderSystem.directionalCmds, countNextSubpass, Cmd.isNextSubpass]

lemma countNextSubpass_modelDrawCmds (s : SysState) (model : Model) (surfExt : Extent) :
    countNextSubpass (RenderSystem.modelDrawCmds s model surfExt) = 0 := by
  simp [RenderSystem.modelDrawCmds, countNextSubpass, Cmd.isNextSubpass]

lemma countNextSubpass_lightObjCmds (s : SysState) (light : DirectionalLight)
    (sphereData : List NormalVertex) :
    countNextSubpass (RenderSystem.lightObjCmds s light sphereData) = 0 := by
  simp [RenderSystem.lightObjCmds, countNextSubpass, Cmd.isNextSubpass]

lemma stageInv_stopped_none (s1 : SysState) (h1 : s1.render_stage = .Stopped)
    (h2 : s1.commands = none) : StageInv s1 := by
  refine ⟨?_, fun _ => h2, ?_⟩
  · rw [h1]; intro hx; cases hx
  · intro l hl; rw [h2] at hl; cases hl

lemma stageInv_of_not (s1 : SysState) (h1 : s1.render_stage ≠ .NeedsRedraw)
    (h2 : s1.render_stage ≠ .Stopped) (h3 : s1.commands = none) : StageInv s1 := by
  refine ⟨h1, fun hs => absurd hs h2, ?_⟩
  intro l hl; rw [h3] at hl; cases hl

lemma stageInv_some (s1 : SysState) (l : List Cmd)
    (h1 : s1.render_stage ≠ .NeedsRedraw) (h2 : s1.render_stage ≠ .Stopped)
    (h3 : s1.commands = some l)
    (h4 : countNextSubpass l = subpassAdvances s1.render_stage) : StageInv s1 := by
  refine ⟨h1, fun hs => absurd hs h2, ?_⟩
  intro l2 hl2
  rw [h3] at hl2
  cases hl2
  exact h4

/-- Every public call maps a state satisfying the state-machine
invariant to a state satisfying it (panicking calls return `none`). -/
lemma applyCall_stageInv (s : SysState) (c : SysCall) (s1 : SysState)
    (hInv : StageInv s) (h : s.applyCall c = some s1) : StageInv s1 := by
  obtain ⟨hnr, hstop, hcount⟩ := hInv
  cases c with
  | startFrame acq env =>
    cases hst : s.render_stage with
    | NeedsRedraw => exact absurd hst hnr
    | Stopped =>
      cases acq with
      | outOfDate =>
        simp only [SysState.applyCall, RenderSystem.start_frame.eq_def, hst] at h
        have hf := recreate_swapchain_fields _ _ _ h
        have h1 : s1.render_stage = RenderStage.Deferred := hf.1
        have h2 : s1.commands = s.commands := hf.2.1
        exact stageInv_of_not s1 (by rw [h1]; intro hx; cases hx)
          (by rw [h1]; intro hx; cases hx) (h2.trans (hstop hst))
      | otherErr =>
        simp only [SysState.applyCall, RenderSystem.start_frame.eq_def, hst] at h
        exact Option.noConfusion h
      | ok imageIndex suboptimal =>
        cases suboptimal with
        | true =>
          simp only [SysState.applyCall, RenderSystem.start_frame.eq_def, hst] at h
          have hf := recreate_swapchain_fields _ _ _ h
          have h1 : s1.render_stage = RenderStage.Deferred := hf.1
          have h2 : s1.commands = s.commands := hf.2.1
          exact stageInv_of_not s1 (by rw [h1]; intro hx; cases hx)
            (by rw [h1]; intro hx; cases hx) (h2.trans (hstop hst))
        | false =>
          cases hget : s.framebuffers.get? imageIndex with
          | none =>
            simp only [SysState.applyCall, RenderSystem.start_frame.eq_def, hst, hget] at h
            exact Option.noConfusion h
          | some fb =>
            simp only [SysState.applyCall, RenderSystem.start_frame.eq_def, hst, hget] at h
            cases h
            refine stageInv_some _ [.beginRenderPass RenderSystem.startFrameClearValues fb]
              (by intro hx; cases hx) (by intro hx; cases hx) rfl ?_
            simp [countNextSubpass, Cmd.isNextSubpass, subpassAdvances]
    | Deferred =>
      simp only [SysState.applyCall, RenderSystem.start_frame.eq_def, hst] at h
      cases h
      exact stageInv_stopped_none _ rfl rfl
    | Ambient =>
      simp only [SysState.applyCall, RenderSystem.start_frame.eq_def, hst] at h
      cases h
      exact stageInv_stopped_none _ rfl rfl
    | Directional =>
      simp only [SysState.applyCall, RenderSystem.start_frame.eq_def, hst] at h
      cases h
      exact stageInv_stopped_none _ rfl rfl
    | LightObject =>
      simp only [SysState.applyCall, RenderSystem.start_frame.eq_def, hst] at h
      cases h
      exact stageInv_stopped_none _ rfl rfl
  | renderModel model surfExt env =>
    cases hst : s.render_stage with
    | NeedsRedraw => exact absurd hst hnr
    | Deferred =>
      cases hcmd : s.commands with
      | none =>
        simp only [SysState.applyCall, RenderSystem.render_model.eq_def, hst, hcmd] at h
        exact Option.noConfusion h
      | some l =>
        simp only [SysState.applyCall, RenderSystem.render_model.eq_def, hst, hcmd] at h
        cases h
        refine stageInv_some _ (l ++ RenderSystem.modelDrawCmds s model surfExt)
          (by intro hx; cases hx) (by intro hx; cases hx) rfl ?_
        rw [countNextSubpass_append, countNextSubpass_modelDrawCmds]
        have hl := hcount l hcmd
        rw [hst] at hl
        rw [hl]
        rfl
    | Stopped =>
      simp only [SysState.applyCall, RenderSystem.render_model.eq_def, hst] at h
      cases h
      exact stageInv_stopped_none _ rfl rfl
    | Ambient =>
      simp only [SysState.applyCall, RenderSystem.render_model.eq_def, hst] at h
      cases h
      exact stageInv_stopped_none _ rfl rfl
    | Directional =>
      simp only [SysState.applyCall, RenderSystem.render_model.eq_def, hst] at h
      cases h
      exact stageInv_stopped_none _ rfl rfl
    | LightObject =>
      simp only [SysState.applyCall, RenderSystem.render_model.eq_def, hst] at h
      cases h
      exact stageInv_stopped_none _ rfl rfl
  | renderAmbient surfExt env =>
    cases hst : s.render_stage with
    | NeedsRedraw => exact absurd hst hnr
    | Deferred =>
      cases hcmd : s.commands with
      | none =>
        simp only [SysState.applyCall, RenderSystem.render_ambient.eq_def, hst, hcmd] at h
        exact Option.noConfusion h
      | some l =>
        simp only [SysState.applyCall, RenderSystem.render_ambient.eq_def, hst, hcmd] at h
        cases h
        refine stageInv_some _ (l ++ RenderSystem.ambientCmds s surfExt)
          (by intro hx; cases hx) (by intro hx; cases hx) rfl ?_
        rw [countNextSubpass_append, countNextSubpass_ambientCmds]
        have hl := hcount l hcmd
        rw [hst] at hl
        rw [hl]
        rfl
    | Ambient =>
      simp only [SysState.applyCall, RenderSystem.render_ambient.eq_def, hst] at h
      cases h
      exact ⟨hnr, hstop, hcount⟩
    | Stopped =>
      simp only [SysState.applyCall, RenderSystem.render_ambient.eq_def, hst] at h
      cases h
      exact stageInv_stopped_none _ rfl rfl
    | Directional =>
      simp only [SysState.applyCall, RenderSystem.render_ambient.eq_def, hst] at h
      cases h
      exact stageInv_stopped_none _ rfl rfl
    | LightObject =>
      simp only [SysState.applyCall, RenderSystem.render_ambient.eq_def, hst] at h
      cases h
      exact stageInv_stopped_none _ rfl rfl
  | renderDirectional light surfExt env =>
    cases hst : s.render_stage with
    | NeedsRedraw => exact absurd hst hnr
    | Ambient =>
      cases hcmd : s.commands with
      | none =>
        simp only [SysState.applyCall, RenderSystem.render_directional.eq_def, hst, hcmd] at h
        exact Option.noConfusion h
      | some l =>
        simp only [SysState.applyCall, RenderSystem.render_directional.eq_def, hst, hcmd] at h
        cases h
        refine stageInv_some _ (l ++ RenderSystem.directionalCmds s light surfExt)
          (by intro hx; cases hx) (by intro hx; cases hx) rfl ?_
        rw [countNextSubpass_append, countNextSubpass_directionalCmds]
        have hl := hcount l hcmd
        rw [hst] at hl
        rw [hl]
        rfl
    | Directional =>
      cases hcmd : s.commands with
      | none =>
        simp only [SysState.applyCall, RenderSystem.render_directional.eq_def, hst, hcmd] at h
        exact Option.noConfusion h
      | some l =>
        simp only [SysState.applyCall, RenderSystem.render_directional.eq_def, hst, hcmd] at h
        cases h
        refine stageInv_some _ (l ++ RenderSystem.directionalCmds s light surfExt)
          (by intro hx; cases hx) (by intro hx; cases hx) rfl ?_
        rw [countNextSubpass_append, countNextSubpass_directionalCmds]
        have hl := hcount l hcmd
        rw [hst] at hl
        rw [hl]
        rfl
    | Stopped =>
      simp only [SysState.applyCall, RenderSystem.render_directional.eq_def, hst] at h
      cases h
      exact stageInv_stopped_none _ rfl rfl
    | Deferred =>
      simp only [SysState.applyCall, RenderSystem.render_directional.eq_def, hst] at h
      cases h
      exact stageInv_stopped_none _ rfl rfl
    | LightObject =>
      simp only [SysState.applyCall, RenderSystem.render_directional.eq_def, hst] at h
      cases h
      exact stageInv_stopped_none _ rfl rfl
  | renderLightObject light sphereData env =>
    cases hst : s.render_stage with
    | NeedsRedraw => exact absurd hst hnr
    | Directional =>
      cases hcmd : s.commands with
      | none =>
        simp only [SysState.applyCall, RenderSystem.render_light_object.eq_def, hst, hcmd] at h
        exact Option.noConfusion h
      | some l =>
        simp only [SysState.applyCall, RenderSystem.render_light_object.eq_def, hst, hcmd] at h
        cases h
        refine stageInv_some _ (l ++ RenderSystem.lightObjCmds s light sphereData)
          (by intro hx; cases hx) (by intro hx; cases hx) rfl ?_
        rw [countNextSubpass_append, countNextSubpass_lightObjCmds]
        have hl := hcount l hcmd
        rw [hst] at hl
        rw [hl]
        rfl
    | LightObject =>
      cases hcmd : s.commands with
      | none =>
        simp only [SysState.applyCall, RenderSystem.render_light_object.eq_def, hst, hcmd] at h
        exact Option.noConfusion h
      | some l =>
        simp only [SysState.applyCall, RenderSystem.render_light_object.eq_def, hst, hcmd] at h
        cases h
        refine stageInv_some _ (l ++ RenderSystem.lightObjCmds s light sphereData)
          (by intro hx; cases hx) (by intro hx; cases hx) rfl ?_
        rw [countNextSubpass_append, countNextSubpass_lightObjCmds]
        have hl := hcount l hcmd
        rw [hst] at hl
        rw [hl]
        rfl
    | Stopped =>
      simp only [SysState.applyCall, RenderSystem.render_light_object.eq_def, hst] at h
      cases h
      exact stageInv_stopped_none _ rfl rfl
    | Deferred =>
      simp only [SysState.applyCall, RenderSystem.render_light_object.eq_def, hst] at h
      cases h
      exact stageInv_stopped_none _ rfl rfl
    | Ambient =>
      simp only [SysState.applyCall, RenderSystem.render_light_object.eq_def, hst] at h
      cases h
      exact stageInv_stopped_none _ rfl rfl
  | finishFrame flush env prev =>
    cases hst : s.render_stage with
    | NeedsRedraw => exact absurd hst hnr
    | Directional =>
      cases hcmd : s.commands with
      | none =>
        simp only [SysState.applyCall, RenderSystem.finish_frame.eq_def, hst, hcmd] at h
        exact Option.noConfusion h
      | some l =>
        cases hacq : s.acquire_future with
        | none =>
          simp only [SysState.applyCall, RenderSystem.finish_frame.eq_def, hst, hcmd, hacq] at h
          exact Option.noConfusion h
        | some u =>
          cases flush with
          | ok =>
            simp only [SysState.applyCall, RenderSystem.finish_frame.eq_def, hst, hcmd, hacq] at h
            cases h
            exact stageInv_stopped_none _ rfl rfl
          | outOfDate =>
            cases hrec : RenderSystem.recreate_swapchain s env with
            | none =>
              simp only [SysState.applyCall, RenderSystem.finish_frame.eq_def, hst, hcmd,
                hacq, hrec] at h
              exact Option.noConfusion h
            | some s2 =>
              simp only [SysState.applyCall, RenderSystem.finish_frame.eq_def, hst, hcmd,
                hacq, hrec] at h
              cases h
              exact stageInv_stopped_none _ rfl rfl
          | otherErr =>
            simp only [SysState.applyCall, RenderSystem.finish_frame.eq_def, hst, hcmd, hacq] at h
            cases h
            exact stageInv_stopped_none _ rfl rfl
    | LightObject =>
      cases hcmd : s.commands with
      | none =>
        simp only [SysState.applyCall, RenderSystem.finish_frame.eq_def, hst, hcmd] at h
        exact Option.noConfusion h
      | some l =>
        cases hacq : s.acquire_future with
        | none =>
          simp only [SysState.applyCall, RenderSystem.finish_frame.eq_def, hst, hcmd, hacq] at h
          exact Option.noConfusion h
        | some u =>
          cases flush with
          | ok =>
            simp only [SysState.applyCall, RenderSystem.finish_frame.eq_def, hst, hcmd, hacq] at h
            cases h
            exact stageInv_stopped_none _ rfl rfl
          | outOfDate =>
            cases hrec : RenderSystem.recreate_swapchain s env with
            | none =>
              simp only [SysState.applyCall, RenderSystem.finish_frame.eq_def, hst, hcmd,
                hacq, hrec] at h
              exact Option.noConfusion h
            | some s2 =>
              simp only [SysState.applyCall, RenderSystem.finish_frame.eq_def, hst, hcmd,
                hacq, hrec] at h
              cases h
              exact stageInv_stopped_none _ rfl rfl
          | otherErr =>
            simp only [SysState.applyCall, RenderSystem.finish_frame.eq_def, hst, hcmd, hacq] at h
            cases h
            exact stageInv_stopped_none _ rfl rfl
    | Stopped =>
      simp only [SysState.applyCall, RenderSystem.finish_frame.eq_def, hst] at h
      cases h
      exact stageInv_stopped_none _ rfl rfl
    | Deferred =>
      simp only [SysState.applyCall, RenderSystem.finish_frame.eq_def, hst] at h
      cases h
      exact stageInv_stopped_none _ rfl rfl
    | Ambient =>
      simp only [SysState.applyCall, RenderSystem.finish_frame.eq_def, hst] at h
      cases h
      exact stageInv_stopped_none _ rfl rfl
  | setView view =>
    rw [SysState.applyCall] at h
    cases h
    exact ⟨hnr, hstop, hcount⟩
  | setAmbient color intensity =>
    rw [SysState.applyCall] at h
    cases h
    exact ⟨hnr, hstop, hcount⟩
  | recreateSwapchain env =>
    rw [SysState.applyCall] at h
    have hf := recreate_swapchain_fields _ _ _ h
    obtain ⟨h1, h2, -, -, -, -⟩ := hf
    refine ⟨by rw [h1]; exact hnr, ?_, ?_⟩
    · intro hs
      rw [h2]
      exact hstop (h1 ▸ hs)
    · intro l hl
      rw [h1]
      exact hcount l (h2 ▸ hl)

/-- Runs preserve the state-machine invariant. -/
lemma run_stageInv (calls : List SysCall) :
    ∀ s s1 : SysState, StageInv s → s.run calls = some s1 → StageInv s1 := by
  induction calls with
  | nil =>
    intro s s1 hInv h
    rw [SysState.run] at h
    cases h
    exact hInv
  | cons c rest ih =>
    intro s s1 hInv h
    rw [SysState.run] at h
    cases hc : s.applyCall c with
    | none => rw [hc] at h; exact Option.noConfusion h
    | some s2 =>
      rw [hc] at h
      exact ih s2 s1 (applyCall_stageInv s c s2 hInv hc) h

/-- Rust `RenderSystem::new` establishes the state-machine invariant. -/
lemma new_stageInv (env : SwapchainEnv) (s0 : SysState)
    (h : RenderSystem.new env = some s0) : StageInv s0 := by
  rw [RenderSystem.new.eq_def] at h
  cases hfb : create_framebuffer (create_swapchain_and_images env).2 with
  | none => rw [hfb] at h; exact Option.noConfusion h
  | some fbs =>
    rw [hfb] at h
    cases h
    exact stageInv_stopped_none _ rfl rfl

/-- When the driver returns at least one image, `recreate_swapchain`
succeeds and produces exactly the rebuilt state. -/
lemma recreate_swapchain_built (s : SysState) (env : SwapchainEnv) (n : ℕ)
    (hcount : env.imageCount = n + 1) :
    RenderSystem.recreate_swapchain s env = some
      { s with
        vp := { s.vp with projection := (VP.from_surface env.surfaceExtent).projection }
        swapchain := ⟨env.surfaceExtent, env.imageCount⟩
        framebuffers := (List.replicate env.imageCount env.surfaceExtent).map
          (fun img => ⟨img, env.surfaceExtent, env.surfaceExtent, env.surfaceExtent⟩)
        color_buffer := ⟨env.surfaceExtent⟩
        normal_buffer := ⟨env.surfaceExtent⟩
        vp_buffer := create_uniform_buffer
          { s.vp with projection := (VP.from_surface env.surfaceExtent).projection }
        vp_set := create_uniform_buffer
          { s.vp with projection := (VP.from_surface env.surfaceExtent).projection } } := by
  have hfb : create_framebuffer (create_swapchain_and_images env).2
      = some ((List.replicate env.imageCount env.surfaceExtent).map
          (fun img => ⟨img, env.surfaceExtent, env.surfaceExtent, env.surfaceExtent⟩),
        ⟨env.surfaceExtent⟩, ⟨env.surfaceExtent⟩) := by
    show create_framebuffer (List.replicate env.imageCount env.surfaceExtent) = _
    rw [hcount, create_framebuffer.eq_def, List.replicate_succ]
    rfl
  rw [RenderSystem.recreate_swapchain.eq_def, hfb]
  rfl

/-- With no image, `recreate_swapchain` panics (indexing `images[0]`). -/
lemma recreate_swapchain_zero (s : SysState) (env : SwapchainEnv)
    (hcount : env.imageCount = 0) :
    RenderSystem.recreate_swapchain s env = none := by
  have hfb : create_framebuffer (create_swapchain_and_images env).2 = none := by
    show create_framebuffer (List.replicate env.imageCount env.surfaceExtent) = none
    rw [hcount]
    rfl
  rw [RenderSystem.recreate_swapchain.eq_def, hfb]

/-! ### Claim theorems: the render-system state machine -/

/-- C10: the `NeedsRedraw` stage is unreachable: `new` starts in
`Stopped` and no sequence of public calls (under any environment inputs)
ever reaches a state whose stage is `NeedsRedraw`, so the
`NeedsRedraw` match arms of the operations are dead code. -/
theorem needsRedraw_unreachable :
    (∀ env s0, RenderSystem.new env = some s0 → s0.render_stage = RenderStage.Stopped)
    ∧ (∀ env calls s1,
        (RenderSystem.new env).bind (fun s0 => s0.run calls) = some s1 →
        s1.render_stage ≠ RenderStage.NeedsRedraw) := by
  constructor
  · intro env s0 h
    rw [RenderSystem.new.eq_def] at h
    cases hfb : create_framebuffer (create_swapchain_and_images env).2 with
    | none => rw [hfb] at h; exact Option.noConfusion h
    | some fbs => rw [hfb] at h; cases h; rfl
  · intro env calls s1 h
    cases hnew : RenderSystem.new env with
    | none => rw [hnew] at h; exact Option.noConfusion h
    | some s0 =>
      rw [hnew] at h
      have hrun : s0.run calls = some s1 := h
      exact (run_stageInv calls s0 s1 (new_stageInv env s0 hnew) hrun).1

/-- C10 evaluation witness: the system built in a concrete environment
starts `Stopped`, and a concrete one-call run is not in `NeedsRedraw`. -/
theorem needsRedraw_unreachable_witness :
    newSys.render_stage = RenderStage.Stopped
    ∧ newSys.render_stage ≠ RenderStage.NeedsRedraw :=
  ⟨needsRedraw_unreachable.1 env0 newSys rfl,
   needsRedraw_unreachable.2 env0 [] newSys rfl⟩

/-- C3: calling `render_ambient` in stage `Ambient` is a strict no-op
(the state, including the recording, is returned unchanged); its first
call from `Deferred` appends a command block holding exactly one subpass
advance; and over every reachable state the in-flight recording holds
exactly one subpass advance once the stage is past `Deferred` and none
before, hence at most one per frame. -/
theorem render_ambient_idempotent_single_advance :
    (∀ (s : SysState) (surfExt : Extent) (env : SwapchainEnv),
      s.render_stage = RenderStage.Ambient →
      RenderSystem.render_ambient s surfExt env = some s)
    ∧ (∀ (s : SysState) (surfExt : Extent) (env : SwapchainEnv) (l : List Cmd),
      s.render_stage = RenderStage.Deferred → s.commands = some l →
      RenderSystem.render_ambient s surfExt env
        = some { s with render_stage := RenderStage.Ambient,
                        commands := some (l ++ RenderSystem.ambientCmds s surfExt) }
      ∧ countNextSubpass (RenderSystem.ambientCmds s surfExt) = 1)
    ∧ (∀ (env : SwapchainEnv) (calls : List SysCall) (s1 : SysState) (l : List Cmd),
      (RenderSystem.new env).bind (fun s0 => s0.run calls) = some s1 →
      s1.commands = some l →
      countNextSubpass l = subpassAdvances s1.render_stage
      ∧ subpassAdvances s1.render_stage ≤ 1) := by
  refine ⟨?_, ?_, ?_⟩
  · intro s surfExt env hst
    simp only [RenderSystem.render_ambient.eq_def, hst]
  · intro s surfExt env l hst hcmd
    constructor
    · simp only [RenderSystem.render_ambient.eq_def, hst, hcmd]
    · exact countNextSubpass_ambientCmds s surfExt
  · intro env calls s1 l h hcmd
    cases hnew : RenderSystem.new env with
    | none => rw [hnew] at h; exact Option.noConfusion h
    | some s0 =>
      rw [hnew] at h
      have hrun : s0.run calls = some s1 := h
      obtain ⟨-, -, hcount⟩ := run_stageInv calls s0 s1 (new_stageInv env s0 hnew) hrun
      refine ⟨hcount l hcmd, ?_⟩
      have hall : ∀ st, subpassAdvances st ≤ 1 := by
        intro st
        cases st <;> simp [subpassAdvances]
      exact hall s1.render_stage

/-- C3 evaluation witness: a concrete no-op repeat call, a concrete first
call recording one advance, and a concrete reachable recording holding
none before the lighting subpass. -/
theorem render_ambient_idempotent_witness :
    RenderSystem.render_ambient ambientSys extent0 env0 = some ambientSys
    ∧ countNextSubpass (RenderSystem.ambientCmds midFrameSys extent0) = 1
    ∧ countNextSubpass [Cmd.beginRenderPass RenderSystem.startFrameClearValues fb0]
        = subpassAdvances midFrameSys.render_stage :=
  ⟨render_ambient_idempotent_single_advance.1 ambientSys extent0 env0 rfl,
   (render_ambient_idempotent_single_advance.2.1 midFrameSys extent0 env0
     [Cmd.beginRenderPass RenderSystem.startFrameClearValues fb0] rfl rfl).2,
   (render_ambient_idempotent_single_advance.2.2 env0
     [SysCall.startFrame (.ok 0 false) env0] midFrameSys
     [Cmd.beginRenderPass RenderSystem.startFrameClearValues fb0] rfl rfl).1⟩

/-- C2: `finish_frame` submits and presents exactly when called in
`Directional` or `LightObject` (the submitted buffer is the recording
closed by `end_render_pass`, followed by a present of the acquired
image); called anywhere else it emits nothing; on every returning path
the stage ends `Stopped` with the recording discarded. -/
theorem finish_frame_submits_iff (s : SysState) (flush : FlushResult)
    (env : SwapchainEnv) (prev : FrameFuture) (s1 : SysState) (fut : FrameFuture)
    (evs : List FrameEvent)
    (h : RenderSystem.finish_frame s flush env prev = some (s1, fut, evs)) :
    s1.render_stage = RenderStage.Stopped
    ∧ s1.commands = none
    ∧ ((s.render_stage = RenderStage.Directional
        ∨ s.render_stage = RenderStage.LightObject) →
        ∀ l, s.commands = some l →
          evs = [.submitted (l ++ [.endRenderPass]) s.image_index,
                 .presented s.image_index])
    ∧ (¬(s.render_stage = RenderStage.Directional
        ∨ s.render_stage = RenderStage.LightObject) → evs = [])
    ∧ (evs ≠ [] →
        (s.render_stage = RenderStage.Directional
        ∨ s.render_stage = RenderStage.LightObject)) := by
  cases hst : s.render_stage with
  | NeedsRedraw =>
    simp only [RenderSystem.finish_frame.eq_def, hst] at h
    cases hrec : RenderSystem.recreate_swapchain s env with
    | none => rw [hrec] at h; exact Option.noConfusion h
    | some s2 =>
      rw [hrec] at h
      cases h
      refine ⟨rfl, rfl, ?_, fun _ => rfl, fun he => absurd rfl he⟩
      intro hor
      rcases hor with hx | hx <;> cases hx
  | Stopped =>
    simp only [RenderSystem.finish_frame.eq_def, hst] at h
    cases h
    refine ⟨rfl, rfl, ?_, fun _ => rfl, fun he => absurd rfl he⟩
    intro hor
    rcases hor with hx | hx <;> cases hx
  | Deferred =>
    simp only [RenderSystem.finish_frame.eq_def, hst] at h
    cases h
    refine ⟨rfl, rfl, ?_, fun _ => rfl, fun he => absurd rfl he⟩
    intro hor
    rcases hor with hx | hx <;> cases hx
  | Ambient =>
    simp only [RenderSystem.finish_frame.eq_def, hst] at h
    cases h
    refine ⟨rfl, rfl, ?_, fun _ => rfl, fun he => absurd rfl he⟩
    intro hor
    rcases hor with hx | hx <;> cases hx
  | Directional =>
    cases hcmd : s.commands with
    | none =>
      simp only [RenderSystem.finish_frame.eq_def, hst, hcmd] at h
      exact Option.noConfusion h
    | some l =>
      cases hacq : s.acquire_future with
      | none =>
        simp only [RenderSystem.finish_frame.eq_def, hst, hcmd, hacq] at h
        exact Option.noConfusion h
      | some u =>
        cases flush with
        | ok =>
          simp only [RenderSystem.finish_frame.eq_def, hst, hcmd, hacq] at h
          cases h
          refine ⟨rfl, rfl, ?_, ?_, fun _ => Or.inl rfl⟩
          · intro _ l2 hl2
            cases hl2
            rfl
          · intro hne
            exact absurd (Or.inl rfl) hne
        | outOfDate =>
          cases hrec : RenderSystem.recreate_swapchain s env with
          | none =>
            simp only [RenderSystem.finish_frame.eq_def, hst, hcmd, hacq, hrec] at h
            exact Option.noConfusion h
          | some s2 =>
            simp only [RenderSystem.finish_frame.eq_def, hst, hcmd, hacq, hrec] at h
            cases h
            refine ⟨rfl, rfl, ?_, ?_, fun _ => Or.inl rfl⟩
            · intro _ l2 hl2
              cases hl2
              rfl
            · intro hne
              exact absurd (Or.inl rfl) hne
        | otherErr =>
          simp only [RenderSystem.finish_frame.eq_def, hst, hcmd, hacq] at h
          cases h
          refine ⟨rfl, rfl, ?_, ?_, fun _ => Or.inl rfl⟩
          · intro _ l2 hl2
            cases hl2
            rfl
          · intro hne
            exact absurd (Or.inl rfl) hne
  | LightObject =>
    cases hcmd : s.commands with
    | none =>
      simp only [RenderSystem.finish_frame.eq_def, hst, hcmd] at h
      exact Option.noConfusion h
    | some l =>
      cases hacq : s.acquire_future with
      | none =>
        simp only [RenderSystem.finish_frame.eq_def, hst, hcmd, hacq] at h
        exact Option.noConfusion h
      | some u =>
        cases flush with
        | ok =>
          simp only [RenderSystem.finish_frame.eq_def, hst, hcmd, hacq] at h
          cases h
          refine ⟨rfl, rfl, ?_, ?_, fun _ => Or.inr rfl⟩
          · intro _ l2 hl2
            cases hl2
            rfl
          · intro hne
            exact absurd (Or.inr rfl) hne
        | outOfDate =>
          cases hrec : RenderSystem.recreate_swapchain s env with
          | none =>
            simp only [RenderSystem.finish_frame.eq_def, hst, hcmd, hacq, hrec] at h
            exact Option.noConfusion h
          | some s2 =>
            simp only [RenderSystem.finish_frame.eq_def, hst, hcmd, hacq, hrec] at h
            cases h
            refine ⟨rfl, rfl, ?_, ?_, fun _ => Or.inr rfl⟩
            · intro _ l2 hl2
              cases hl2
              rfl
            · intro hne
              exact absurd (Or.inr rfl) hne
        | otherErr =>
          simp only [RenderSystem.finish_frame.eq_def, hst, hcmd, hacq] at h
          cases h
          refine ⟨rfl, rfl, ?_, ?_, fun _ => Or.inr rfl⟩
          · intro _ l2 hl2
            cases hl2
            rfl
          · intro hne
            exact absurd (Or.inr rfl) hne

/-- C2 evaluation witness: a concrete `finish_frame` in `Directional`
ends `Stopped` with the recording discarded and emits the submit and
present of the closed buffer. -/
theorem finish_frame_submits_iff_witness :
    finishedSys.render_stage = RenderStage.Stopped
    ∧ finishedSys.commands = none
    ∧ submittedEvs
      = [FrameEvent.submitted ((directionalSys.commands.getD []) ++ [Cmd.endRenderPass])
          directionalSys.image_index,
         FrameEvent.presented directionalSys.image_index] := by
  have h := finish_frame_submits_iff directionalSys .ok env0 .now finishedSys
    (.chained .now) submittedEvs rfl
  exact ⟨h.1, h.2.1, h.2.2.1 (Or.inl rfl) (directionalSys.commands.getD []) rfl⟩

/-- C9: a `render_directional` call that proceeds (stage `Ambient` or
`Directional`) uploads a light uniform whose position is the light's
position broadcast to four components as `(x, y, z, z)` and whose color
is the light's color unchanged, bound in the descriptor set of the
appended full-screen draw. -/
theorem render_directional_uploads_xyzz (s : SysState) (light : DirectionalLight)
    (surfExt : Extent) (env : SwapchainEnv) (s1 : SysState) (l : List Cmd)
    (hstage : s.render_stage = RenderStage.Ambient
      ∨ s.render_stage = RenderStage.Directional)
    (hcmd : s.commands = some l)
    (h : RenderSystem.render_directional s light surfExt env = some s1) :
    generate_directional_buffer light
      = ⟨⟨light.position.x, light.position.y, light.position.z, light.position.z⟩,
         light.color⟩
    ∧ s1.commands = some (l ++
        [.setViewport surfExt,
         .bindPipeline .directional,
         .bindVertexBuffers (.dummy s.dummy_verts),
         .bindDescriptorSets .directional 0
           [.directionalSet s.color_buffer s.normal_buffer
             ⟨⟨light.position.x, light.position.y, light.position.z, light.position.z⟩,
              light.color⟩],
         .draw s.dummy_verts.length]) := by
  refine ⟨rfl, ?_⟩
  rcases hstage with hst | hst
  · simp only [RenderSystem.render_directional.eq_def, hst, hcmd] at h
    cases h
    rfl
  · simp only [RenderSystem.render_directional.eq_def, hst, hcmd] at h
    cases h
    rfl

/-- C9 evaluation witness: the concrete light at position `(4, -4, 0)`
uploads the 4-vector `(4, -4, 0, 0)` with its color `(1, 0, 0)`
unchanged. -/
theorem render_directional_uploads_xyzz_witness :
    generate_directional_buffer light0 = ⟨⟨4, -4, 0, 0⟩, ⟨1, 0, 0⟩⟩
    ∧ (ambientSys.render_stage = RenderStage.Ambient
       ∨ ambientSys.render_stage = RenderStage.Directional) :=
  ⟨(render_directional_uploads_xyzz ambientSys light0 extent0 env0 directionalSys
      (ambientSys.commands.getD []) (Or.inl rfl) rfl rfl).1,
   Or.inl rfl⟩

/-- C8: after a `recreate_swapchain` that returns, the framebuffer count
equals the new swapchain image count, the projection aspect ratio is the
new surface width over height, the swapchain and every framebuffer with
its color, normal and depth attachments carry the new extent, and the
view/projection uniform buffer and descriptor set are re-created from
the new data (the view itself untouched). -/
theorem recreate_swapchain_rebuilds_all (s : SysState) (env : SwapchainEnv)
    (s1 : SysState) (h : RenderSystem.recreate_swapchain s env = some s1) :
    s1.framebuffers.length = env.imageCount
    ∧ s1.swapchain = ⟨env.surfaceExtent, env.imageCount⟩
    ∧ s1.framebuffers.length = s1.swapchain.numImages
    ∧ s1.vp.projection.aspect_ratio
        = (env.surfaceExtent.width : ℚ) / (env.surfaceExtent.height : ℚ)
    ∧ (∀ fb ∈ s1.framebuffers,
        fb = ⟨env.surfaceExtent, env.surfaceExtent, env.surfaceExtent, env.surfaceExtent⟩)
    ∧ s1.color_buffer = ⟨env.surfaceExtent⟩
    ∧ s1.normal_buffer = ⟨env.surfaceExtent⟩
    ∧ s1.vp_buffer = create_uniform_buffer s1.vp
    ∧ s1.vp_set = s1.vp_buffer
    ∧ s1.vp.view = s.vp.view := by
  cases hc : env.imageCount with
  | zero =>
    rw [recreate_swapchain_zero s env hc] at h
    exact Option.noConfusion h
  | succ n =>
    rw [recreate_swapchain_built s env n hc] at h
    cases h
    refine ⟨?_, ?_, ?_, rfl, ?_, rfl, rfl, rfl, rfl, rfl⟩
    · simp [hc]
    · simp [hc]
    · simp [hc]
    · intro fb hfb
      rw [List.mem_map] at hfb
      obtain ⟨img, himg, hfb2⟩ := hfb
      rw [List.eq_of_mem_replicate himg] at hfb2
      exact hfb2.symm

/-- C8 evaluation witness: rebuilding in a concrete 1024x768, 2-image
environment yields 2 framebuffers and aspect ratio 1024/768. -/
theorem recreate_swapchain_rebuilds_all_witness :
    rebuiltSys.framebuffers.length = env1.imageCount
    ∧ rebuiltSys.vp.projection.aspect_ratio
        = (extent1.width : ℚ) / (extent1.height : ℚ) := by
  have h := recreate_swapchain_rebuilds_all newSys env1 rebuiltSys rfl
  exact ⟨h.1, h.2.2.2.1⟩

/-- C6 counterexample: at a concrete `Stopped` state, the render pass is
not begun with four all-zero RGBA clear values — the recorded color
clears carry alpha `1.0`, not `0.0`. -/
theorem start_frame_clears_not_all_zero :
    ¬ ((RenderSystem.start_frame newSys (.ok 0 false) env0).bind (fun s => s.commands)
      = some [Cmd.beginRenderPass
          [.color 0 0 0 0, .color 0 0 0 0, .color 0 0 0 0, .depth 1] fb0]) := by
  decide

/-- C6 amended: when `start_frame` proceeds past acquisition it begins
the render pass with exactly four clear values: `[0, 0, 0, 1]` (RGB
zero, alpha one) for each of the final-color, color and normal
attachments and the depth clear value `1.0` (the far plane). -/
theorem start_frame_clear_values (s : SysState) (i : ℕ) (env : SwapchainEnv)
    (s1 : SysState) (fb : Framebuffer)
    (hstage : s.render_stage = RenderStage.Stopped)
    (hfb : s.framebuffers.get? i = some fb)
    (h : RenderSystem.start_frame s (.ok i false) env = some s1) :
    s1.commands = some [.beginRenderPass
      [.color 0 0 0 1, .color 0 0 0 1, .color 0 0 0 1, .depth 1] fb] := by
  simp only [RenderSystem.start_frame.eq_def, hstage, hfb] at h
  cases h
  rfl

/-- C6 evaluation witness: a concrete successful `start_frame` records
exactly the three alpha-one color clears and the far-plane depth clear. -/
theorem start_frame_clear_values_witness :
    newSys.render_stage = RenderStage.Stopped
    ∧ newSys.framebuffers.get? 0 = some fb0
    ∧ midFrameSys.commands = some [Cmd.beginRenderPass
        [.color 0 0 0 1, .color 0 0 0 1, .color 0 0 0 1, .depth 1] fb0] :=
  ⟨rfl, rfl, start_frame_clear_values newSys 0 env0 midFrameSys fb0 rfl rfl rfl⟩

/-- C1 counterexample: after a `start_frame` in `Stopped` whose
acquisition reports staleness (suboptimal), the immediately subsequent
`start_frame` does not leave the system in `Deferred` — it aborts back
to `Stopped`, because the stale path left the stage at `Deferred`. -/
theorem stale_acquire_subsequent_not_deferred :
    ¬ ((newSys.run [SysCall.startFrame (.ok 0 true) env1,
        SysCall.startFrame (.ok 0 false) env1]).map (fun s => s.render_stage)
      = some RenderStage.Deferred) := by
  decide

/-- C1 amended: a `start_frame` in `Stopped` whose acquisition is stale
(out-of-date error or suboptimal flag) rebuilds the swapchain to the new
extent and drops the frame, but leaves the stage at `Deferred`; the
immediately subsequent `start_frame` therefore aborts to `Stopped`
without acquiring (another dropped frame, swapchain untouched), and it
is the next `start_frame` after that that proceeds normally: it acquires
an image, begins a command recording on a framebuffer of the updated
extent, and leaves the system in `Deferred`. -/
theorem stale_acquire_recovery (s : SysState) (acq : AcquireResult)
    (env : SwapchainEnv) (j : ℕ) (s1 s2 : SysState)
    (hstop : s.render_stage = RenderStage.Stopped) (hcmd : s.commands = none)
    (hstale : staleAcquire acq = true) (hj : j < env.imageCount)
    (h1 : RenderSystem.start_frame s acq env = some s1)
    (h2 : RenderSystem.start_frame s1 (.ok j false) env = some s2) :
    s1.render_stage = RenderStage.Deferred
    ∧ s1.commands = none
    ∧ s1.swapchain = ⟨env.surfaceExtent, env.imageCount⟩
    ∧ s2.render_stage = RenderStage.Stopped
    ∧ s2.commands = none
    ∧ s2.framebuffers = s1.framebuffers
    ∧ s2.swapchain = s1.swapchain
    ∧ RenderSystem.start_frame s2 (.ok j false) env
        = some { s2 with
            render_stage := RenderStage.Deferred
            commands := some [Cmd.beginRenderPass RenderSystem.startFrameClearValues
              ⟨env.surfaceExtent, env.surfaceExtent, env.surfaceExtent, env.surfaceExtent⟩]
            image_index := j
            acquire_future := some () } := by
  obtain ⟨n, hn⟩ : ∃ n, env.imageCount = n + 1 := ⟨env.imageCount - 1, by omega⟩
  have hsf : RenderSystem.start_frame s acq env
      = RenderSystem.recreate_swapchain { s with render_stage := RenderStage.Deferred } env := by
    cases acq with
    | outOfDate => simp only [RenderSystem.start_frame.eq_def, hstop]
    | otherErr => simp [staleAcquire] at hstale
    | ok i sub =>
      cases sub with
      | false => simp [staleAcquire] at hstale
      | true => simp only [RenderSystem.start_frame.eq_def, hstop]
  rw [hsf, recreate_swapchain_built { s with render_stage := RenderStage.Deferred } env n hn]
    at h1
  cases h1
  simp only [RenderSystem.start_frame.eq_def] at h2
  cases h2
  have hrep : (List.replicate env.imageCount env.surfaceExtent).get? j
      = some env.surfaceExtent := by
    have hlt : j < (List.replicate env.imageCount env.surfaceExtent).length := by
      simpa using hj
    rw [List.get?_eq_get hlt, List.get_replicate]
  have hget : ((List.replicate env.imageCount env.surfaceExtent).map
      (fun img => (⟨img, env.surfaceExtent, env.surfaceExtent,
        env.surfaceExtent⟩ : Framebuffer))).get? j
      = some ⟨env.surfaceExtent, env.surfaceExtent, env.surfaceExtent,
          env.surfaceExtent⟩ := by
    rw [List.get?_map, hrep]
    rfl
  refine ⟨rfl, hcmd, rfl, rfl, rfl, rfl, rfl, ?_⟩
  simp only [RenderSystem.start_frame.eq_def, hget]

/-- C1 evaluation witness: the concrete three-call recovery run after a
suboptimal acquisition in a resized 1024x768 environment. -/
theorem stale_acquire_recovery_witness :
    ({ rebuiltSys with render_stage := RenderStage.Deferred } : SysState).render_stage
      = RenderStage.Deferred
    ∧ rebuiltSys.render_stage = RenderStage.Stopped
    ∧ RenderSystem.start_frame rebuiltSys (.ok 1 false) env1
        = some { rebuiltSys with
            render_stage := RenderStage.Deferred
            commands := some [Cmd.beginRenderPass RenderSystem.startFrameClearValues
              ⟨extent1, extent1, extent1, extent1⟩]
            image_index := 1
            acquire_future := some () } := by
  have h := stale_acquire_recovery newSys (.ok 0 true) env1 1
    { rebuiltSys with render_stage := RenderStage.Deferred } rebuiltSys
    rfl rfl rfl (by decide) rfl rfl
  exact ⟨h.1, h.2.2.2.1, h.2.2.2.2.2.2.2⟩

end LearnVulkano
